import Mathlib

/-!
Verification development for the Group Scholar pacing console
(`main.go` plus the trend-report source file).

Modelling conventions of the shallow embedding:

* Monetary quantities (`float64` in Go) are modelled as rationals `ℚ`.
  Go float arithmetic on the values occurring here is exact except for the
  one division that can produce a non-finite value
  (`record.DisbursedToDate / record.Amount` in `calculatePace`); that
  division is modelled by the type `FVal` below, which carries the IEEE
  special values `+∞`, `-∞`, `NaN` explicitly and mirrors IEEE comparison
  semantics (every comparison involving `NaN` is false).
* Instants (`time.Time`) are modelled as rational numbers of days since an
  epoch.  A `YYYY-MM-DD` date string is either unparsable (`Option.none`,
  which also covers the empty string: both behave identically in the
  source) or parses to a whole-day value `some d`, the midnight instant of
  calendar day `d`.  Midnight normalisation of an arbitrary instant is
  `Int.floor`.  Go's zero `time.Time` (the `Date` field of an unscheduled
  check-in, tested with `IsZero`) is modelled as `none`.
* Go's `sort.SliceStable(s, less)` is modelled by `List.mergeSort` with
  the reflexive comparison `le a b := !(less b a)`: for the strict-weak
  -order comparators used in the source both produce the same output (the
  unique stable reordering sorted by `less`).
* Go's cohort map (`map[string]*cohortSummary`, one entry per key, each
  entry folded over exactly the items carrying its key) is modelled by
  grouping: one fold per distinct cohort key over the items of that key,
  in first-occurrence key order before the final sort.
-/

/-- A `float64` value: finite rational, `+∞`, `-∞`, or `NaN`. -/
inductive FVal where
  | fin : ℚ → FVal
  | pinf : FVal
  | ninf : FVal
  | nan : FVal
deriving DecidableEq, Repr

/-- IEEE `<` on `FVal`: any comparison with `NaN` is false. -/
def flt : FVal → FVal → Bool
  | .nan, _ => false
  | _, .nan => false
  | .fin a, .fin b => decide (a < b)
  | .ninf, .ninf => false
  | .ninf, _ => true
  | _, .ninf => false
  | .pinf, _ => false
  | .fin _, .pinf => true

/-- IEEE `≥` against a finite bound: false for `NaN`. -/
def fge (v : FVal) (q : ℚ) : Bool :=
  match v with
  | .fin a => decide (q ≤ a)
  | .pinf => true
  | _ => false

/-- IEEE `≤` against a finite bound: false for `NaN`. -/
def fle (v : FVal) (q : ℚ) : Bool :=
  match v with
  | .fin a => decide (a ≤ q)
  | .ninf => true
  | _ => false

/-- Go float division of finite operands: `x/0` is `±∞` for `x ≠ 0` and
`0/0` is `NaN`. -/
def fdiv (a b : ℚ) : FVal :=
  if b ≠ 0 then .fin (a / b)
  else if 0 < a then .pinf
  else if a < 0 then .ninf
  else .nan

/-- Subtracting a finite value from an `FVal`. -/
def fsubQ (v : FVal) (q : ℚ) : FVal :=
  match v with
  | .fin a => .fin (a - q)
  | x => x

/-- Go `math.Max` on finite operands. -/
def goMax (a b : ℚ) : ℚ := if a < b then b else a

/-- ASCII lower-casing of one character (the branch of Go `unicode.ToLower`
relevant to the ASCII strings in scope). -/
def toLowerChar (c : Char) : Char :=
  if 65 ≤ c.toNat ∧ c.toNat ≤ 90 then Char.ofNat (c.toNat + 32) else c

/-- Go `strings.ToLower`, modelled character-wise for ASCII input. -/
def goToLower (s : String) : String := ⟨s.data.map toLowerChar⟩

/-- ASCII whitespace, the relevant part of Go `unicode.IsSpace`. -/
def isSpaceChar (c : Char) : Bool :=
  decide (c.toNat = 32 ∨ (9 ≤ c.toNat ∧ c.toNat ≤ 13))

/-- Go `strings.TrimSpace`, modelled for ASCII whitespace. -/
def goTrimSpace (s : String) : String :=
  ⟨((s.data.dropWhile isSpaceChar).reverse.dropWhile isSpaceChar).reverse⟩

/-- Lexicographic strict order on code sequences. -/
def natListLt : List Nat → List Nat → Bool
  | _, [] => false
  | [], _ :: _ => true
  | a :: as, b :: bs =>
    if a < b then true else if b < a then false else natListLt as bs

/-- The sequence of character codes of a string. -/
def charCodes (s : String) : List Nat := s.data.map Char.toNat

/-- Go string `<`: bytewise lexicographic comparison, which on valid UTF-8
coincides with code-point lexicographic comparison. -/
def goStringLt (s t : String) : Bool := natListLt (charCodes s) (charCodes t)

/-- Source `clamp` (main.go:627) on finite values. -/
def clamp (value lo hi : ℚ) : ℚ :=
  if value < lo then lo
  else if value > hi then hi
  else value

/-- Source `clamp` (main.go:627) applied to a possibly non-finite value, with
IEEE comparisons exactly as the Go source performs them: `NaN` fails both
comparisons and is returned unchanged; `+∞` exceeds the upper bound and is
clamped to it. -/
def fclamp (value : FVal) (lo hi : ℚ) : FVal :=
  if flt value (.fin lo) then .fin lo
  else if flt (.fin hi) value then .fin hi
  else value

/-- Source `Disbursement` (main.go:20).  Date strings are modelled pre-parsed:
`some d` for a `YYYY-MM-DD` string denoting day `d`, `none` for an empty
or unparsable string. -/
structure Disbursement where
  Scholar : String
  Cohort : String
  Amount : ℚ
  DisbursedToDate : ℚ
  AwardDate : Option Int
  TargetDate : Option Int
  NextCheckin : Option Int
  Owner : String
  Status : String
  Notes : String
deriving DecidableEq, Repr

/-- Source `paceStatus` (main.go:33).  `Percent` and `Delta` can be non-finite
(unguarded division); the remaining numeric fields are always finite. -/
structure paceStatus where
  Label : String
  Delta : FVal
  Percent : FVal
  Expected : ℚ
  ExpectedAmount : ℚ
  GapAmount : ℚ
deriving DecidableEq, Repr

/-- Source `checkinStatus` (main.go:42); `Date = none` models the zero `time.Time`. -/
structure checkinStatus where
  Label : String
  Days : Int
  Date : Option Int
deriving DecidableEq, Repr

/-- Source `riskStatus` (main.go:98). -/
structure riskStatus where
  Level : String
  Flags : List String
  Score : Int
deriving DecidableEq, Repr

/-- Source `parseDateOrNow` (main.go:611): an unparsable date falls back to `now`. -/
def parseDateOrNow (value : Option Int) (fallback : ℚ) : ℚ :=
  match value with
  | some d => (d : ℚ)
  | none => fallback

/-- Source `paceLabel` (main.go:486). -/
def paceLabel (delta : FVal) : String :=
  if fge delta (1 / 10) then "Ahead"
  else if fle delta (-(1 / 10)) then "Behind"
  else "On Track"

/-- Source `calculatePace` (main.go:353).  Durations in days; `now` is a rational
instant. -/
def calculatePace (record : Disbursement) (now : ℚ) : paceStatus :=
  let awardDate := parseDateOrNow record.AwardDate now
  let targetDate := parseDateOrNow record.TargetDate now
  let totalDays := goMax 1 (targetDate - awardDate)
  let elapsedDays := goMax 0 (now - awardDate)
  let expected := clamp (elapsedDays / totalDays) 0 1
  let percent := fclamp (fdiv record.DisbursedToDate record.Amount) 0 1
  let expectedAmount := record.Amount * expected
  let gapAmount := record.DisbursedToDate - expectedAmount
  { Label := paceLabel (fsubQ percent expected)
    Delta := fsubQ percent expected
    Percent := percent
    Expected := expected
    ExpectedAmount := expectedAmount
    GapAmount := gapAmount }

/-- Source `calculateCheckin` (main.go:466).  Both `now` and the parsed check-in
date are normalised to midnight; the parsed date is already a whole day,
so `daysUntil` is the exact integer difference (the source's
`math.Round` of a whole number of days). -/
def calculateCheckin (record : Disbursement) (now : ℚ) (windowDays : Int) :
    checkinStatus :=
  match record.NextCheckin with
  | none => { Label := "Unscheduled", Days := 0, Date := none }
  | some checkDate =>
    let nowDate : Int := ⌊now⌋
    let daysUntil : Int := checkDate - nowDate
    let label :=
      if daysUntil < 0 then "Overdue"
      else if daysUntil ≤ windowDays then "Due Soon"
      else "Scheduled"
    { Label := label, Days := daysUntil, Date := some checkDate }

/-- Source `calculateRisk` (main.go:580): sequential score/flag accumulation. -/
def calculateRisk (pace : paceStatus) (check : checkinStatus) : riskStatus :=
  let score : Int := 0
  let flags : List String := []
  let (score, flags) :=
    if pace.Label = "Behind" then (score + 2, flags ++ ["Behind pace"])
    else (score, flags)
  let (score, flags) :=
    if check.Label = "Overdue" then (score + 2, flags ++ ["Check-in overdue"])
    else (score, flags)
  let (score, flags) :=
    if check.Label = "Due Soon" then (score + 1, flags ++ ["Check-in due soon"])
    else (score, flags)
  let (score, flags) :=
    if check.Label = "Unscheduled" then
      (score + 1, flags ++ ["Check-in unscheduled"])
    else (score, flags)
  let score := if pace.Label = "Ahead" then score - 1 else score
  let level :=
    if score ≥ 3 then "High"
    else if score ≥ 2 then "Medium"
    else "Low"
  { Level := level, Flags := flags, Score := score }

/-- Source `checkinRank` (main.go:496). -/
def checkinRank (label : String) : Nat :=
  if label = "Overdue" then 0
  else if label = "Due Soon" then 1
  else if label = "Scheduled" then 2
  else 3

/-- Source `paceRank` (main.go:509). -/
def paceRank (label : String) : Nat :=
  if label = "Behind" then 0
  else if label = "On Track" then 1
  else 2

/-- Source `awardItem` (main.go:48).  The `desc` field — a lipgloss-styled
presentation string — is not modelled; no claim concerns it. -/
structure awardItem where
  title : String
  data : Disbursement
  pace : paceStatus
  check : checkinStatus
  risk : riskStatus
deriving DecidableEq, Repr

/-- Source `buildItems` (main.go:251): per-record derivation, window clamped at 0. -/
def buildItems (records : List Disbursement) (now : ℚ) (windowDays : Int) :
    List awardItem :=
  let checkinWindow := if windowDays < 0 then 0 else windowDays
  records.map fun record =>
    let pace := calculatePace record now
    let check := calculateCheckin record now checkinWindow
    let risk := calculateRisk pace check
    { title := record.Scholar ++ " (" ++ record.Owner ++ ")"
      data := record
      pace := pace
      check := check
      risk := risk }

/-- The `priority` comparator inside `sortItems` (main.go:288). -/
def priorityLess (left right : awardItem) : Bool :=
  if checkinRank left.check.Label ≠ checkinRank right.check.Label then
    decide (checkinRank left.check.Label < checkinRank right.check.Label)
  else if paceRank left.pace.Label ≠ paceRank right.pace.Label then
    decide (paceRank left.pace.Label < paceRank right.pace.Label)
  else if left.check.Date ≠ right.check.Date then
    match left.check.Date, right.check.Date with
    | none, _ => false
    | _, none => true
    | some a, some b => decide (a < b)
  else goStringLt (goToLower left.data.Scholar) (goToLower right.data.Scholar)

/-- The `alpha` comparator inside `sortItems` (main.go:284). -/
def alphaLess (left right : awardItem) : Bool :=
  goStringLt (goToLower left.data.Scholar) (goToLower right.data.Scholar)

/-- Reflexive closure of `alphaLess`, the comparison `mergeSort` sorts by. -/
def alphaLe (a b : awardItem) : Bool := !(alphaLess b a)

/-- Reflexive closure of `priorityLess`, the comparison `mergeSort` sorts by. -/
def priorityLe (a b : awardItem) : Bool := !(priorityLess b a)

/-- Source `sortItems` (main.go:279): a stable sort under the chosen comparator;
an unrecognized mode leaves the (copied) slice unchanged. -/
def sortItems (items : List awardItem) (mode : String) : List awardItem :=
  if mode = "alpha" then items.mergeSort alphaLe
  else if mode = "priority" then items.mergeSort priorityLe
  else items

/-- Source `applyFilter` (main.go:312): `all` is the identity; `risk` and `high`
keep matching items; any other mode appends nothing (empty result). -/
def applyFilter (items : List awardItem) (mode : String) : List awardItem :=
  if mode = "all" then items
  else
    items.filter fun item =>
      if mode = "risk" then
        decide (item.pace.Label = "Behind") || decide (item.check.Label = "Overdue")
          || decide (item.check.Label = "Due Soon")
      else decide (mode = "high") && decide (item.risk.Level = "High")

/-- Source `normalizeFilterMode` (main.go:331). -/
def normalizeFilterMode (mode : String) : Except String String :=
  let normalized := goToLower (goTrimSpace mode)
  if normalized = "" || normalized = "all" then .ok "all"
  else if normalized = "risk" then .ok "risk"
  else if normalized = "high" then .ok "high"
  else .error ("unknown filter mode: " ++ mode)

/-- Month and day of a day number (days since 1970-01-01), by the standard
Gregorian civil-from-days computation; valid for every day number from
0000-03-01 on, which covers every date a `YYYY-MM-DD` string can denote
apart from the first two months of year 0. -/
def civilFromDays (z : Int) : Nat × Nat :=
  let n : Nat := (z + 719468).toNat
  let doe := n % 146097
  let yoe := (doe - doe / 1460 + doe / 36524 - doe / 146096) / 365
  let doy := doe - (365 * yoe + yoe / 4 - yoe / 100)
  let mp := (5 * doy + 2) / 153
  let d := doy - (153 * mp + 2) / 5 + 1
  let m := if mp < 10 then mp + 3 else mp - 9
  (m, d)

/-- Go month abbreviations as used by the layout `Jan`. -/
def monthAbbrev (m : Nat) : String :=
  (["Jan", "Feb", "Mar", "Apr", "May", "Jun",
    "Jul", "Aug", "Sep", "Oct", "Nov", "Dec"].getD (m - 1) "")

/-- Source `time.Time.Format("Jan 2")` on a midnight day number: abbreviated
month, space, unpadded day. -/
def formatMonDay (z : Int) : String :=
  let md := civilFromDays z
  monthAbbrev md.1 ++ " " ++ toString md.2

/-- Source `summaryMetrics` (main.go:80). -/
structure summaryMetrics where
  Count : Nat
  TotalAwarded : ℚ
  TotalDisbursed : ℚ
  TotalExpected : ℚ
  TotalGap : ℚ
  Completion : ℚ
  Ahead : Nat
  OnTrack : Nat
  Behind : Nat
  Overdue : Nat
  DueSoon : Nat
  High : Nat
  Medium : Nat
  Low : Nat
  Upcoming : List String
deriving DecidableEq, Repr

/-- The initial metrics value of `calculateSummaryMetrics` (main.go:638). -/
def summaryInit (items : List awardItem) : summaryMetrics :=
  { Count := items.length
    TotalAwarded := 0, TotalDisbursed := 0, TotalExpected := 0, TotalGap := 0
    Completion := 0
    Ahead := 0, OnTrack := 0, Behind := 0
    Overdue := 0, DueSoon := 0
    High := 0, Medium := 0, Low := 0
    Upcoming := [] }

/-- The four `+=` lines of the `calculateSummaryMetrics` loop body
(main.go:644). -/
def stepTotals (metrics : summaryMetrics) (item : awardItem) : summaryMetrics :=
  { metrics with
    TotalAwarded := metrics.TotalAwarded + item.data.Amount
    TotalDisbursed := metrics.TotalDisbursed + item.data.DisbursedToDate
    TotalExpected := metrics.TotalExpected + item.pace.ExpectedAmount
    TotalGap := metrics.TotalGap + item.pace.GapAmount }

/-- The pace-label count of the loop body (main.go:648). -/
def stepPaceCount (metrics : summaryMetrics) (item : awardItem) : summaryMetrics :=
  if item.pace.Label = "Ahead" then { metrics with Ahead := metrics.Ahead + 1 }
  else if item.pace.Label = "Behind" then
    { metrics with Behind := metrics.Behind + 1 }
  else { metrics with OnTrack := metrics.OnTrack + 1 }

/-- The overdue count of the loop body (main.go:656). -/
def stepOverdueCount (metrics : summaryMetrics) (item : awardItem) :
    summaryMetrics :=
  if item.check.Label = "Overdue" then
    { metrics with Overdue := metrics.Overdue + 1 }
  else metrics

/-- The due-soon count of the loop body (main.go:659). -/
def stepDueSoonCount (metrics : summaryMetrics) (item : awardItem) :
    summaryMetrics :=
  if item.check.Label = "Due Soon" then
    { metrics with DueSoon := metrics.DueSoon + 1 }
  else metrics

/-- The risk-level count of the loop body (main.go:662). -/
def stepRiskCount (metrics : summaryMetrics) (item : awardItem) :
    summaryMetrics :=
  if item.risk.Level = "High" then { metrics with High := metrics.High + 1 }
  else if item.risk.Level = "Medium" then
    { metrics with Medium := metrics.Medium + 1 }
  else { metrics with Low := metrics.Low + 1 }

/-- The upcoming-preview append of the loop body (main.go:670). -/
def stepUpcoming (metrics : summaryMetrics) (item : awardItem) :
    summaryMetrics :=
  match item.check.Date with
  | some d =>
    if item.check.Label ≠ "Overdue" then
      { metrics with
        Upcoming :=
          metrics.Upcoming ++ [formatMonDay d ++ " · " ++ item.data.Scholar] }
    else metrics
  | none => metrics

/-- One iteration of the loop body of `calculateSummaryMetrics`
(main.go:642): the six blocks in source order. -/
def summaryStep (metrics : summaryMetrics) (item : awardItem) : summaryMetrics :=
  stepUpcoming
    (stepRiskCount
      (stepDueSoonCount
        (stepOverdueCount (stepPaceCount (stepTotals metrics item) item) item)
        item)
      item)
    item

/-- Source `calculateSummaryMetrics` (main.go:637). -/
def calculateSummaryMetrics (items : List awardItem) : summaryMetrics :=
  let metrics := items.foldl summaryStep (summaryInit items)
  if metrics.TotalAwarded > 0 then
    { metrics with Completion := metrics.TotalDisbursed / metrics.TotalAwarded }
  else metrics

/-- Source `sort.Strings(metrics.Upcoming)` in `buildSummary` (main.go:684):
plain lexicographic string sort. -/
def sortStrings (l : List String) : List String :=
  l.mergeSort fun a b => !(goStringLt b a)

/-- Source `cohortSummary` (main.go:777). -/
structure cohortSummary where
  Cohort : String
  Awards : Nat
  Behind : Nat
  GapTotal : ℚ
  Completion : ℚ
deriving DecidableEq, Repr

/-- A fresh cohort entry (main.go:1170). -/
def newCohortSummary (cohort : String) : cohortSummary :=
  { Cohort := cohort, Awards := 0, Behind := 0, GapTotal := 0, Completion := 0 }

/-- The loop body of `buildCohortSummaries` (main.go:1173): `Completion`
accumulates the per-item ratio only when `Amount > 0`. -/
def updateCohortEntry (entry : cohortSummary) (item : awardItem) : cohortSummary :=
  { entry with
    Awards := entry.Awards + 1
    GapTotal := entry.GapTotal + item.pace.GapAmount
    Behind := entry.Behind + (if item.pace.Label = "Behind" then 1 else 0)
    Completion := entry.Completion +
      (if item.data.Amount > 0 then item.data.DisbursedToDate / item.data.Amount
       else 0) }

/-- The post-loop division of `buildCohortSummaries` (main.go:1184). -/
def finishCohortEntry (entry : cohortSummary) : cohortSummary :=
  if entry.Awards > 0 then
    { entry with Completion := entry.Completion / (entry.Awards : ℚ) }
  else entry

/-- The comparator of `buildCohortSummaries` (main.go:1189). -/
def cohortLess (a b : cohortSummary) : Bool :=
  if a.Behind ≠ b.Behind then decide (a.Behind > b.Behind)
  else if a.GapTotal ≠ b.GapTotal then decide (a.GapTotal < b.GapTotal)
  else goStringLt (goToLower a.Cohort) (goToLower b.Cohort)

/-- Source `buildCohortSummaries` (main.go:1164).  The Go hash map — one entry
per distinct cohort key, each folded over exactly that key's items in item
order — is modelled by a fold per distinct key; the pre-sort entry order
is immaterial (Go map iteration order is unspecified) and the final
stable sort is modelled as for `sortItems`. -/
def buildCohortSummaries (items : List awardItem) : List cohortSummary :=
  let keys := (items.map fun i => i.data.Cohort).dedup
  let summaries := keys.map fun c =>
    finishCohortEntry
      ((items.filter fun i => i.data.Cohort == c).foldl updateCohortEntry
        (newCohortSummary c))
  summaries.mergeSort fun a b => !(cohortLess b a)

/-- Source `snapshotStats` (trend source): the timestamp is modelled as a rational
instant; its RFC3339 rendering is not modelled (no claim concerns it). -/
structure snapshotStats where
  GeneratedAt : ℚ
  RecordCount : Int
  TotalAwarded : ℚ
  TotalDisbursed : ℚ
  Ahead : Int
  OnTrack : Int
  Behind : Int
  Overdue : Int
  DueSoon : Int
  High : Int
  Medium : Int
  Low : Int
  DueSoonWindow : Int
deriving DecidableEq, Repr

/-- Source `trendSnapshot` (trend source, line 10). -/
structure trendSnapshot where
  GeneratedAt : ℚ
  RecordCount : Int
  TotalAwarded : ℚ
  TotalDisbursed : ℚ
  Ahead : Int
  OnTrack : Int
  Behind : Int
  Overdue : Int
  DueSoon : Int
  High : Int
  Medium : Int
  Low : Int
  DueSoonWindow : Int
deriving DecidableEq, Repr

/-- Source `trendDelta` (trend source, line 26): note there is no window field. -/
structure trendDelta where
  RecordCount : Int
  TotalAwarded : ℚ
  TotalDisbursed : ℚ
  Ahead : Int
  OnTrack : Int
  Behind : Int
  Overdue : Int
  DueSoon : Int
  High : Int
  Medium : Int
  Low : Int
deriving DecidableEq, Repr

/-- Source `trendReportPayload` (trend source, line 40). -/
structure trendReportPayload where
  GeneratedAt : ℚ
  Current : trendSnapshot
  Previous : trendSnapshot
  Delta : trendDelta
deriving DecidableEq, Repr

/-- Source `buildTrendSnapshot` (trend source, line 125). -/
def buildTrendSnapshot (stats : snapshotStats) : trendSnapshot :=
  { GeneratedAt := stats.GeneratedAt
    RecordCount := stats.RecordCount
    TotalAwarded := stats.TotalAwarded
    TotalDisbursed := stats.TotalDisbursed
    Ahead := stats.Ahead
    OnTrack := stats.OnTrack
    Behind := stats.Behind
    Overdue := stats.Overdue
    DueSoon := stats.DueSoon
    High := stats.High
    Medium := stats.Medium
    Low := stats.Low
    DueSoonWindow := stats.DueSoonWindow }

/-- Source `buildTrendDelta` (trend source, line 143). -/
def buildTrendDelta (current previous : snapshotStats) : trendDelta :=
  { RecordCount := current.RecordCount - previous.RecordCount
    TotalAwarded := current.TotalAwarded - previous.TotalAwarded
    TotalDisbursed := current.TotalDisbursed - previous.TotalDisbursed
    Ahead := current.Ahead - previous.Ahead
    OnTrack := current.OnTrack - previous.OnTrack
    Behind := current.Behind - previous.Behind
    Overdue := current.Overdue - previous.Overdue
    DueSoon := current.DueSoon - previous.DueSoon
    High := current.High - previous.High
    Medium := current.Medium - previous.Medium
    Low := current.Low - previous.Low }

/-- Source `buildTrendReportPayload` (trend source, line 64). -/
def buildTrendReportPayload (current previous : snapshotStats)
    (generatedAt : ℚ) : trendReportPayload :=
  { GeneratedAt := generatedAt
    Current := buildTrendSnapshot current
    Previous := buildTrendSnapshot previous
    Delta := buildTrendDelta current previous }

/-- Whether a float value is finite and inside `[0,1]`. -/
def inUnitInterval : FVal → Bool
  | .fin a => decide (0 ≤ a ∧ a ≤ 1)
  | _ => false

/-- The date component of the `priority` tie-break chain: items without a
check-in date (the zero time) sort after every dated item, dated items by
day ascending. -/
def dateKey : Option Int → Bool × Int
  | none => (true, 0)
  | some d => (false, d)

/-- The full `priority` tie-break key: check-in rank, then pace rank, then
date (date-less last), then lower-cased scholar name, compared
lexicographically. -/
def pkey (a : awardItem) : Nat ×ₗ Nat ×ₗ (Bool ×ₗ Int) ×ₗ List Nat :=
  toLex (checkinRank a.check.Label,
    toLex (paceRank a.pace.Label,
      toLex (toLex (dateKey a.check.Date),
        charCodes (goToLower a.data.Scholar))))

/-- The string `calculateSummaryMetrics` appends to `Upcoming` for a dated
item: `"<Mon D> · <scholar>"`. -/
def upcomingEntryOf (item : awardItem) : String :=
  match item.check.Date with
  | some d => formatMonDay d ++ " · " ++ item.data.Scholar
  | none => ""

/-- A record whose amount and disbursement are both zero: the unguarded
division in `calculatePace` is `0/0`. -/
def nanRecord : Disbursement :=
  { Scholar := "Ada", Cohort := "c1", Amount := 0, DisbursedToDate := 0
    AwardDate := some 0, TargetDate := some 100, NextCheckin := none
    Owner := "o", Status := "", Notes := "" }

/-- Cohort item A of the completion-divergence example: amount 1000 fully
disbursed. -/
def recA : Disbursement :=
  { Scholar := "Ada", Cohort := "c1", Amount := 1000, DisbursedToDate := 1000
    AwardDate := some 0, TargetDate := some 365, NextCheckin := none
    Owner := "o", Status := "", Notes := "" }

/-- Cohort item B of the completion-divergence example: amount 9000 with
nothing disbursed. -/
def recB : Disbursement :=
  { Scholar := "Bea", Cohort := "c1", Amount := 9000, DisbursedToDate := 0
    AwardDate := some 0, TargetDate := some 365, NextCheckin := none
    Owner := "o", Status := "", Notes := "" }

/-- The two-item cohort of the completion-divergence example. -/
def abItems : List awardItem := buildItems [recA, recB] 0 14

/-- A record that is behind pace with an overdue check-in at `now = 100`. -/
def recW : Disbursement :=
  { Scholar := "W", Cohort := "c1", Amount := 1000, DisbursedToDate := 0
    AwardDate := some 0, TargetDate := some 10, NextCheckin := some 50
    Owner := "o", Status := "", Notes := "" }

/-- The item `buildItems` derives from `recW` at `now = 100`, window 14. -/
def itemW : awardItem :=
  { title := "W (o)"
    data := recW
    pace :=
      { Label := "Behind", Delta := .fin (-1), Percent := .fin 0
        Expected := 1, ExpectedAmount := 1000, GapAmount := -1000 }
    check := { Label := "Overdue", Days := -50, Date := some 50 }
    risk :=
      { Level := "High", Flags := ["Behind pace", "Check-in overdue"]
        Score := 4 } }

/-- A record with a far-future check-in (Scheduled at `now = 100`). -/
def recCalm : Disbursement :=
  { Scholar := "Cal", Cohort := "c2", Amount := 1000, DisbursedToDate := 500
    AwardDate := some 0, TargetDate := some 200, NextCheckin := some 200
    Owner := "o", Status := "", Notes := "" }

/-- A record with an overdue check-in at `now = 100`. -/
def recOver : Disbursement :=
  { Scholar := "Ova", Cohort := "c2", Amount := 1000, DisbursedToDate := 500
    AwardDate := some 0, TargetDate := some 200, NextCheckin := some 50
    Owner := "o", Status := "", Notes := "" }

/-- An item list that the `priority` comparator would reorder (the
Scheduled item precedes the Overdue one). -/
def c9Items : List awardItem := buildItems [recCalm, recOver] 100 14

/-- Check-in on 2025-01-09 (day 20097), rendered `Jan 9`. -/
def recJan : Disbursement :=
  { Scholar := "Ada", Cohort := "c1", Amount := 1000, DisbursedToDate := 500
    AwardDate := some 0, TargetDate := some 365, NextCheckin := some 20097
    Owner := "o", Status := "", Notes := "" }

/-- Check-in on 2025-04-05 (day 20183), rendered `Apr 5`. -/
def recApr : Disbursement :=
  { Scholar := "Bea", Cohort := "c1", Amount := 1000, DisbursedToDate := 500
    AwardDate := some 0, TargetDate := some 365, NextCheckin := some 20183
    Owner := "o", Status := "", Notes := "" }

/-- The item `buildItems` derives from `recCalm` at `now = 100`, window 14. -/
def itemCalm : awardItem :=
  { title := "Cal (o)"
    data := recCalm
    pace :=
      { Label := "On Track", Delta := .fin 0, Percent := .fin (1 / 2)
        Expected := 1 / 2, ExpectedAmount := 500, GapAmount := 0 }
    check := { Label := "Scheduled", Days := 100, Date := some 200 }
    risk := { Level := "Low", Flags := [], Score := 0 } }

/-- The item `buildItems` derives from `recOver` at `now = 100`, window 14. -/
def itemOver : awardItem :=
  { title := "Ova (o)"
    data := recOver
    pace :=
      { Label := "On Track", Delta := .fin 0, Percent := .fin (1 / 2)
        Expected := 1 / 2, ExpectedAmount := 500, GapAmount := 0 }
    check := { Label := "Overdue", Days := -50, Date := some 50 }
    risk := { Level := "Medium", Flags := ["Check-in overdue"], Score := 2 } }

/-- The item `buildItems` derives from `recA` at `now = 0`, window 14. -/
def itemA : awardItem :=
  { title := "Ada (o)"
    data := recA
    pace :=
      { Label := "Ahead", Delta := .fin 1, Percent := .fin 1
        Expected := 0, ExpectedAmount := 0, GapAmount := 1000 }
    check := { Label := "Unscheduled", Days := 0, Date := none }
    risk := { Level := "Low", Flags := ["Check-in unscheduled"], Score := 0 } }

/-- The item `buildItems` derives from `recB` at `now = 0`, window 14. -/
def itemB : awardItem :=
  { title := "Bea (o)"
    data := recB
    pace :=
      { Label := "On Track", Delta := .fin 0, Percent := .fin 0
        Expected := 0, ExpectedAmount := 0, GapAmount := 0 }
    check := { Label := "Unscheduled", Days := 0, Date := none }
    risk := { Level := "Low", Flags := ["Check-in unscheduled"], Score := 1 } }

/-- The item `buildItems` derives from `recJan` at `now = 0`, window 14. -/
def itemJan : awardItem :=
  { title := "Ada (o)"
    data := recJan
    pace :=
      { Label := "Ahead", Delta := .fin (1 / 2), Percent := .fin (1 / 2)
        Expected := 0, ExpectedAmount := 0, GapAmount := 500 }
    check := { Label := "Scheduled", Days := 20097, Date := some 20097 }
    risk := { Level := "Low", Flags := [], Score := -1 } }

/-- The item `buildItems` derives from `recApr` at `now = 0`, window 14. -/
def itemApr : awardItem :=
  { title := "Bea (o)"
    data := recApr
    pace :=
      { Label := "Ahead", Delta := .fin (1 / 2), Percent := .fin (1 / 2)
        Expected := 0, ExpectedAmount := 0, GapAmount := 500 }
    check := { Label := "Scheduled", Days := 20183, Date := some 20183 }
    risk := { Level := "Low", Flags := [], Score := -1 } }

/-- The two-item list of the upcoming-preview example. -/
def upcomingItems : List awardItem := buildItems [recJan, recApr] 0 14

/-- The cohort summary `buildCohortSummaries` produces for the two-item
cohort example: average-of-ratios completion `(1.0 + 0.0) / 2 = 0.5`. -/
def cohortAB : cohortSummary :=
  { Cohort := "c1", Awards := 2, Behind := 0, GapTotal := 1000
    Completion := 1 / 2 }

/-- Correspondence of `natListLt` with the lexicographic order on lists. -/
theorem natListLt_iff (l m : List Nat) :
    natListLt l m = true ↔ List.Lex (· < ·) l m := by
  induction l generalizing m with
  | nil =>
    cases m with
    | nil => simp [natListLt]
    | cons b bs =>
      simp only [natListLt]
      simp
      exact List.Lex.nil
  | cons a as ih =>
    cases m with
    | nil => simp [natListLt]
    | cons b bs =>
      simp only [natListLt]
      rcases Nat.lt_trichotomy a b with h | h | h
      · simp [h]
        exact List.Lex.rel h
      · subst h
        simp [Nat.lt_irrefl]
        rw [ih bs]
        exact (List.Lex.cons_iff).symm
      · simp [h, Nat.lt_asymm h]
        intro hL
        cases hL with
        | cons htail => exact Nat.lt_irrefl a h
        | rel hr => exact Nat.lt_asymm h hr

/-- Evaluation of `mergeSort` on a two-element list. -/
theorem mergeSort_pair {α : Type} (le : α → α → Bool) (x y : α) :
    List.mergeSort [x, y] le = if le x y then [x, y] else [y, x] := by
  rw [List.mergeSort]
  simp [List.splitInTwo, List.splitAt, List.splitAt.go, List.merge]

/-- Evaluation of the pipeline on the two check-in example records. -/
theorem c9Items_eval : c9Items = [itemCalm, itemOver] := by
  norm_num +decide [c9Items, buildItems, calculatePace, calculateCheckin, calculateRisk,
    parseDateOrNow, goMax, clamp, fdiv, fclamp, flt, fge, fle, fsubQ, paceLabel,
    recCalm, recOver, itemCalm, itemOver]

/-- Evaluation of the pipeline on `recW`. -/
theorem recWItems_eval : buildItems [recW] 100 14 = [itemW] := by
  norm_num +decide [buildItems, calculatePace, calculateCheckin, calculateRisk,
    parseDateOrNow, goMax, clamp, fdiv, fclamp, flt, fge, fle, fsubQ, paceLabel,
    recW, itemW]

/-- Evaluation of the pipeline on the cohort example records. -/
theorem abItems_eval : abItems = [itemA, itemB] := by
  norm_num +decide [abItems, buildItems, calculatePace, calculateCheckin, calculateRisk,
    parseDateOrNow, goMax, clamp, fdiv, fclamp, flt, fge, fle, fsubQ, paceLabel,
    recA, recB, itemA, itemB]

/-- Evaluation of the pipeline on the upcoming-preview example records. -/
theorem upcomingItems_eval : upcomingItems = [itemJan, itemApr] := by
  norm_num +decide [upcomingItems, buildItems, calculatePace, calculateCheckin,
    calculateRisk, parseDateOrNow, goMax, clamp, fdiv, fclamp, flt, fge, fle,
    fsubQ, paceLabel, recJan, recApr, itemJan, itemApr]

/-- C1: the claim mandates `percent = 0` whenever `amount ≤ 0`, never a
non-finite value.  The source leaves the division unguarded: at
`amount = 0`, `disbursed = 0` it computes `0/0 = NaN`, which `clamp`
passes through unchanged, so the produced `percent` is `NaN`, not `0`. -/
theorem calculatePace_zero_amount_yields_nan :
    nanRecord.Amount ≤ 0
    ∧ (calculatePace nanRecord 50).Percent = FVal.nan
    ∧ FVal.nan ≠ FVal.fin 0 := by
  decide

/-- C2: the claim asserts `percent ∈ [0,1]` for every record; at
`amount = 0`, `disbursed = 0` the produced `percent` is `NaN`, which lies
in no interval. -/
theorem calculatePace_percent_escapes_unit_interval :
    inUnitInterval (calculatePace nanRecord 50).Percent = false
    ∧ (calculatePace nanRecord 50).Percent = FVal.nan := by
  decide

/-- C8: the trend delta is the exact field-wise difference
`current − previous`, hence the exact additive inverse of the delta taken
in the opposite order, field by field; the delta structure has no window
field, and the payload reports the current snapshot's window as-is. -/
theorem buildTrendDelta_fieldwise_inverse (current previous : snapshotStats)
    (generatedAt : ℚ) :
    buildTrendDelta current previous =
      { RecordCount := current.RecordCount - previous.RecordCount
        TotalAwarded := current.TotalAwarded - previous.TotalAwarded
        TotalDisbursed := current.TotalDisbursed - previous.TotalDisbursed
        Ahead := current.Ahead - previous.Ahead
        OnTrack := current.OnTrack - previous.OnTrack
        Behind := current.Behind - previous.Behind
        Overdue := current.Overdue - previous.Overdue
        DueSoon := current.DueSoon - previous.DueSoon
        High := current.High - previous.High
        Medium := current.Medium - previous.Medium
        Low := current.Low - previous.Low }
    ∧ (buildTrendDelta current previous).RecordCount
        = -(buildTrendDelta previous current).RecordCount
    ∧ (buildTrendDelta current previous).TotalAwarded
        = -(buildTrendDelta previous current).TotalAwarded
    ∧ (buildTrendDelta current previous).TotalDisbursed
        = -(buildTrendDelta previous current).TotalDisbursed
    ∧ (buildTrendDelta current previous).Ahead
        = -(buildTrendDelta previous current).Ahead
    ∧ (buildTrendDelta current previous).OnTrack
        = -(buildTrendDelta previous current).OnTrack
    ∧ (buildTrendDelta current previous).Behind
        = -(buildTrendDelta previous current).Behind
    ∧ (buildTrendDelta current previous).Overdue
        = -(buildTrendDelta previous current).Overdue
    ∧ (buildTrendDelta current previous).DueSoon
        = -(buildTrendDelta previous current).DueSoon
    ∧ (buildTrendDelta current previous).High
        = -(buildTrendDelta previous current).High
    ∧ (buildTrendDelta current previous).Medium
        = -(buildTrendDelta previous current).Medium
    ∧ (buildTrendDelta current previous).Low
        = -(buildTrendDelta previous current).Low
    ∧ (buildTrendReportPayload current previous generatedAt).Delta
        = buildTrendDelta current previous
    ∧ (buildTrendReportPayload current previous generatedAt).Current.DueSoonWindow
        = current.DueSoonWindow
    ∧ (buildTrendReportPayload current previous generatedAt).Previous.DueSoonWindow
        = previous.DueSoonWindow := by
  refine ⟨rfl, ?_, ?_, ?_, ?_, ?_, ?_, ?_, ?_, ?_, ?_, ?_, rfl, rfl, rfl⟩ <;>
    simp only [buildTrendDelta] <;> ring

/-- C9 is false as stated: with the unrecognized mode `"bogus"`,
`applyFilter` silently returns an empty list and `sortItems` silently
returns the items unchanged even though the `priority` comparator would
reorder them; only `normalizeFilterMode` reports an error. -/
theorem unknown_mode_is_silently_ignored :
    applyFilter c9Items "bogus" = []
    ∧ sortItems c9Items "bogus" = c9Items
    ∧ sortItems c9Items "priority" ≠ c9Items
    ∧ normalizeFilterMode "bogus" = .error "unknown filter mode: bogus" := by
  refine ⟨?_, ?_, ?_, ?_⟩
  · simp [applyFilter]
  · simp [sortItems]
  · rw [c9Items_eval]
    simp only [sortItems]
    rw [if_neg (by decide), if_pos trivial, mergeSort_pair,
      show priorityLe itemCalm itemOver = false from by decide]
    simp only [Bool.false_eq_true, if_false]
    intro h
    have ht := congrArg (List.map fun i => i.title) h
    simp only [List.map] at ht
    exact absurd ht (by decide)
  · simp [normalizeFilterMode, goToLower, goTrimSpace, isSpaceChar, toLowerChar]

/-- C9 amended: `normalizeFilterMode` rejects every unrecognized filter
mode with a synchronous error, but `applyFilter` applied directly to an
unrecognized mode silently returns an empty list, and `sortItems` with an
unrecognized mode silently returns the items in input order. -/
theorem normalizeFilterMode_rejects_unknown (mode : String)
    (items : List awardItem)
    (h : ¬(goToLower (goTrimSpace mode) = "" ∨ goToLower (goTrimSpace mode) = "all"
        ∨ goToLower (goTrimSpace mode) = "risk"
        ∨ goToLower (goTrimSpace mode) = "high")) :
    normalizeFilterMode mode = .error ("unknown filter mode: " ++ mode)
    ∧ (mode ≠ "alpha" → mode ≠ "priority" → sortItems items mode = items)
    ∧ (mode ≠ "all" → mode ≠ "risk" → mode ≠ "high" →
        applyFilter items mode = []) := by
  push_neg at h
  obtain ⟨h1, h2, h3, h4⟩ := h
  refine ⟨?_, ?_, ?_⟩
  · simp [normalizeFilterMode, h1, h2, h3, h4]
  · intro ha hp
    simp [sortItems, ha, hp]
  · intro hall hrisk hhigh
    simp [applyFilter, hall, hrisk, hhigh]

/-- Witness for the amended C9 at the concrete mode `"bogus"`. -/
theorem normalizeFilterMode_rejects_unknown_witness :
    normalizeFilterMode "bogus" = .error ("unknown filter mode: " ++ "bogus")
    ∧ ("bogus" ≠ "alpha" → "bogus" ≠ "priority" →
        sortItems ([] : List awardItem) "bogus" = [])
    ∧ ("bogus" ≠ "all" → "bogus" ≠ "risk" → "bogus" ≠ "high" →
        applyFilter ([] : List awardItem) "bogus" = []) :=
  normalizeFilterMode_rejects_unknown "bogus" [] (by decide)

/-- Block `stepPaceCount` never writes `Completion`. -/
theorem stepPaceCount_Completion (m : summaryMetrics) (item : awardItem) :
    (stepPaceCount m item).Completion = m.Completion := by
  simp only [stepPaceCount]
  (repeat' split) <;> rfl

/-- Block `stepOverdueCount` never writes `Completion`. -/
theorem stepOverdueCount_Completion (m : summaryMetrics) (item : awardItem) :
    (stepOverdueCount m item).Completion = m.Completion := by
  simp only [stepOverdueCount]
  (repeat' split) <;> rfl

/-- Block `stepDueSoonCount` never writes `Completion`. -/
theorem stepDueSoonCount_Completion (m : summaryMetrics) (item : awardItem) :
    (stepDueSoonCount m item).Completion = m.Completion := by
  simp only [stepDueSoonCount]
  (repeat' split) <;> rfl

/-- Block `stepRiskCount` never writes `Completion`. -/
theorem stepRiskCount_Completion (m : summaryMetrics) (item : awardItem) :
    (stepRiskCount m item).Completion = m.Completion := by
  simp only [stepRiskCount]
  (repeat' split) <;> rfl

/-- Block `stepUpcoming` never writes `Completion`. -/
theorem stepUpcoming_Completion (m : summaryMetrics) (item : awardItem) :
    (stepUpcoming m item).Completion = m.Completion := by
  simp only [stepUpcoming]
  rcases item.check.Date with _ | d <;> (repeat' split) <;> rfl

/-- The loop body of `calculateSummaryMetrics` never writes `Completion`. -/
theorem summaryStep_Completion (m : summaryMetrics) (item : awardItem) :
    (summaryStep m item).Completion = m.Completion := by
  simp only [summaryStep]
  rw [stepUpcoming_Completion, stepRiskCount_Completion,
    stepDueSoonCount_Completion, stepOverdueCount_Completion,
    stepPaceCount_Completion]
  rfl

/-- The whole loop of `calculateSummaryMetrics` never writes `Completion`. -/
theorem foldl_summaryStep_Completion (l : List awardItem) (m : summaryMetrics) :
    (l.foldl summaryStep m).Completion = m.Completion := by
  induction l generalizing m with
  | nil => rfl
  | cons a l ih => rw [List.foldl_cons, ih, summaryStep_Completion]

/-- C4: `Completion` is the ratio of sums `TotalDisbursed / TotalAwarded`
when `TotalAwarded > 0` and `0` otherwise, and the empty item set produces
the all-zero summary with an empty upcoming list. -/
theorem calculateSummaryMetrics_completion (items : List awardItem) :
    ((calculateSummaryMetrics items).Completion =
      if (calculateSummaryMetrics items).TotalAwarded > 0 then
        (calculateSummaryMetrics items).TotalDisbursed /
          (calculateSummaryMetrics items).TotalAwarded
      else 0)
    ∧ calculateSummaryMetrics [] =
        { Count := 0, TotalAwarded := 0, TotalDisbursed := 0, TotalExpected := 0
          TotalGap := 0, Completion := 0, Ahead := 0, OnTrack := 0, Behind := 0
          Overdue := 0, DueSoon := 0, High := 0, Medium := 0, Low := 0
          Upcoming := [] } := by
  constructor
  · simp only [calculateSummaryMetrics]
    split
    · next h => simp [h]
    · next h =>
      rw [foldl_summaryStep_Completion]
      simp [summaryInit, h]
  · rfl

/-- C5: the risk score is the ordered sum of the pace and check-in
contributions, the flags accumulate in the same fixed order, the level
brackets the score at 3 and 2, and the Behind-with-Overdue combination
scores 4 with exactly the two matching flags. -/
theorem calculateRisk_characterization (pace : paceStatus)
    (check : checkinStatus) :
    (calculateRisk pace check).Score =
        (if pace.Label = "Behind" then 2 else 0)
      + (if check.Label = "Overdue" then 2 else 0)
      + (if check.Label = "Due Soon" then 1 else 0)
      + (if check.Label = "Unscheduled" then 1 else 0)
      - (if pace.Label = "Ahead" then 1 else 0)
    ∧ (calculateRisk pace check).Flags =
        (if pace.Label = "Behind" then ["Behind pace"] else [])
      ++ (if check.Label = "Overdue" then ["Check-in overdue"] else [])
      ++ (if check.Label = "Due Soon" then ["Check-in due soon"] else [])
      ++ (if check.Label = "Unscheduled" then ["Check-in unscheduled"] else [])
    ∧ ((calculateRisk pace check).Level = "High" ↔
        3 ≤ (calculateRisk pace check).Score)
    ∧ ((calculateRisk pace check).Level = "Medium" ↔
        2 ≤ (calculateRisk pace check).Score
          ∧ (calculateRisk pace check).Score < 3)
    ∧ ((calculateRisk pace check).Level = "Low" ↔
        (calculateRisk pace check).Score < 2)
    ∧ calculateRisk
        { Label := "Behind", Delta := .fin 0, Percent := .fin 0, Expected := 0
          ExpectedAmount := 0, GapAmount := 0 }
        { Label := "Overdue", Days := 0, Date := none } =
        { Level := "High", Flags := ["Behind pace", "Check-in overdue"]
          Score := 4 } := by
  refine ⟨?_, ?_, ?_, ?_, ?_, by decide⟩ <;>
  · by_cases h1 : pace.Label = "Behind" <;>
    by_cases h2 : check.Label = "Overdue" <;>
    by_cases h3 : check.Label = "Due Soon" <;>
    by_cases h4 : check.Label = "Unscheduled" <;>
    by_cases h5 : pace.Label = "Ahead" <;>
      simp_all +decide [calculateRisk]

/-- No risk level `High` without the `Behind` pace contribution: every
check-in label adds at most 2 and `Ahead` subtracts 1. -/
theorem riskLevel_high_implies_behind (pace : paceStatus)
    (check : checkinStatus)
    (h : (calculateRisk pace check).Level = "High") :
    pace.Label = "Behind" := by
  by_cases h1 : pace.Label = "Behind"
  · exact h1
  · exfalso
    by_cases h2 : check.Label = "Overdue" <;>
    by_cases h3 : check.Label = "Due Soon" <;>
    by_cases h4 : check.Label = "Unscheduled" <;>
    by_cases h5 : pace.Label = "Ahead" <;>
      simp_all +decide [calculateRisk]

/-- Filtering with a pointwise-weaker predicate yields a sublist. -/
theorem filter_sublist_mono {α : Type} (l : List α) (p q : α → Bool)
    (h : ∀ a ∈ l, p a = true → q a = true) :
    List.Sublist (l.filter p) (l.filter q) := by
  induction l with
  | nil => simp
  | cons a l ih =>
    have ih2 := ih fun b hb hp => h b (List.mem_cons_of_mem a hb) hp
    by_cases hp : p a = true
    · rw [List.filter_cons_of_pos hp,
        List.filter_cons_of_pos (h a (List.mem_cons_self a l) hp)]
      exact ih2.cons₂ a
    · rw [List.filter_cons_of_neg (by simpa using hp)]
      by_cases hq : q a = true
      · rw [List.filter_cons_of_pos hq]
        exact ih2.cons a
      · rw [List.filter_cons_of_neg (by simpa using hq)]
        exact ih2

/-- The `high` filter keeps exactly the high-risk items. -/
theorem applyFilter_high (items : List awardItem) :
    applyFilter items "high" =
      items.filter fun i => decide (i.risk.Level = "High") := by
  simp +decide [applyFilter]

/-- The `risk` filter keeps exactly the behind/overdue/due-soon items. -/
theorem applyFilter_risk (items : List awardItem) :
    applyFilter items "risk" =
      items.filter fun i =>
        decide (i.pace.Label = "Behind") || decide (i.check.Label = "Overdue")
          || decide (i.check.Label = "Due Soon") := by
  simp +decide [applyFilter]

/-- C10: every item `buildItems` produces whose risk level is `High` has
pace label `Behind`, so the `high` filter result is a sublist of the
`risk` filter result. -/
theorem high_risk_items_are_behind (records : List Disbursement) (now : ℚ)
    (windowDays : Int) :
    (∀ item ∈ buildItems records now windowDays,
        item.risk.Level = "High" → item.pace.Label = "Behind")
    ∧ List.Sublist (applyFilter (buildItems records now windowDays) "high")
        (applyFilter (buildItems records now windowDays) "risk") := by
  have hmem : ∀ item ∈ buildItems records now windowDays,
      item.risk = calculateRisk item.pace item.check := by
    intro item hit
    simp only [buildItems, List.mem_map] at hit
    obtain ⟨r, _, rfl⟩ := hit
    rfl
  constructor
  · intro item hit h
    rw [hmem item hit] at h
    exact riskLevel_high_implies_behind _ _ h
  · rw [applyFilter_high, applyFilter_risk]
    apply filter_sublist_mono
    intro item hit hp
    simp only [decide_eq_true_eq] at hp
    have hb : item.pace.Label = "Behind" := by
      rw [hmem item hit] at hp
      exact riskLevel_high_implies_behind _ _ hp
    simp [hb]

/-- Witness for C10 at the concrete record `recW`. -/
theorem high_risk_items_are_behind_witness :
    itemW.pace.Label = "Behind"
    ∧ List.Sublist (applyFilter (buildItems [recW] 100 14) "high")
        (applyFilter (buildItems [recW] 100 14) "risk") :=
  ⟨(high_risk_items_are_behind [recW] 100 14).1 itemW
      (by rw [recWItems_eval]; exact List.mem_singleton.mpr rfl) (by rfl),
    (high_risk_items_are_behind [recW] 100 14).2⟩

/-- Injectivity of the date component of the priority key. -/
theorem dateKey_inj {x y : Option Int} (h : dateKey x = dateKey y) : x = y := by
  rcases x with _ | v <;> rcases y with _ | w <;> simp_all [dateKey]

/-- The `priority` comparator is exactly the strict lexicographic order on
the four-part tie-break key. -/
theorem priorityLess_iff_pkey_lt (a b : awardItem) :
    priorityLess a b = true ↔ pkey a < pkey b := by
  simp only [pkey, Prod.Lex.lt_iff]
  simp only [priorityLess]
  by_cases h1 : checkinRank a.check.Label = checkinRank b.check.Label
  · rw [if_neg (not_not_intro h1)]
    by_cases h2 : paceRank a.pace.Label = paceRank b.pace.Label
    · rw [if_neg (not_not_intro h2)]
      simp only [h1, h2, lt_irrefl, true_and, false_or]
      by_cases h3 : a.check.Date = b.check.Date
      · rw [if_neg (not_not_intro h3)]
        simp only [h3, lt_irrefl, and_false, false_and, false_or, and_true,
          true_and]
        simp only [goStringLt]
        rw [natListLt_iff]
        exact Iff.rfl
      · rw [if_pos h3]
        rcases ha : a.check.Date with _ | x <;> rcases hb : b.check.Date with _ | y <;>
          rw [ha, hb] at h3 <;>
          simp_all [dateKey, Bool.lt_iff]
    · rw [if_pos h2]
      simp only [h1, lt_irrefl, false_or, true_and, decide_eq_true_eq]
      constructor
      · intro h
        exact Or.inl h
      · rintro (h | ⟨he, -⟩)
        · exact h
        · exact absurd he h2
  · rw [if_pos h1]
    simp only [decide_eq_true_eq]
    constructor
    · exact Or.inl
    · rintro (h | ⟨he, -⟩)
      · exact h
      · exact absurd he h1

/-- The comparison `mergeSort` sorts by is the reflexive lexicographic
order on the tie-break key. -/
theorem priorityLe_iff (a b : awardItem) :
    priorityLe a b = true ↔ pkey a ≤ pkey b := by
  simp only [priorityLe, Bool.not_eq_true']
  rw [← not_lt, ← priorityLess_iff_pkey_lt b a]
  simp

/-- Rank 0 characterises the `Overdue` check-in label. -/
theorem checkinRank_eq_zero {l : String} (h : checkinRank l = 0) :
    l = "Overdue" := by
  by_cases h1 : l = "Overdue"
  · exact h1
  · exfalso
    by_cases h2 : l = "Due Soon" <;> by_cases h3 : l = "Scheduled" <;>
      simp_all [checkinRank]

/-- C6: in `priority` mode `sortItems` permutes the items into an order
that is sorted by the full tie-break key (check-in rank, pace rank,
check-in date with date-less items last, lower-cased scholar name), it is
stable (any correctly-ordered or tied pair keeps its relative order), and
consequently every `Overdue` item precedes every non-`Overdue` item. -/
theorem sortItems_priority_chain (items : List awardItem) :
    List.Perm (sortItems items "priority") items
    ∧ List.Pairwise (fun a b => pkey a ≤ pkey b) (sortItems items "priority")
    ∧ (∀ a b : awardItem, List.Sublist [a, b] items → pkey a ≤ pkey b →
        List.Sublist [a, b] (sortItems items "priority"))
    ∧ List.Pairwise
        (fun a b => b.check.Label = "Overdue" → a.check.Label = "Overdue")
        (sortItems items "priority") := by
  have hs : sortItems items "priority" = items.mergeSort priorityLe := by
    simp only [sortItems]
    rw [if_neg (by decide), if_pos trivial]
  have htrans : ∀ (a b c : awardItem),
      priorityLe a b → priorityLe b c → priorityLe a c := by
    intro a b c hab hbc
    rw [priorityLe_iff] at hab hbc ⊢
    exact le_trans hab hbc
  have htotal : ∀ (a b : awardItem), priorityLe a b || priorityLe b a := by
    intro a b
    rcases le_total (pkey a) (pkey b) with h | h
    · simp [(priorityLe_iff a b).mpr h]
    · simp [(priorityLe_iff b a).mpr h]
  have hpair : (items.mergeSort priorityLe).Pairwise
      (fun a b => priorityLe a b) :=
    List.sorted_mergeSort htrans htotal items
  refine ⟨?_, ?_, ?_, ?_⟩
  · rw [hs]
    exact List.mergeSort_perm items priorityLe
  · rw [hs]
    exact hpair.imp fun h => (priorityLe_iff _ _).mp h
  · intro a b hsub hle
    rw [hs]
    exact List.pair_sublist_mergeSort htrans htotal
      ((priorityLe_iff a b).mpr hle) hsub
  · rw [hs]
    refine hpair.imp ?_
    intro a b h hb
    have hle := (priorityLe_iff a b).mp h
    have hrkb : checkinRank b.check.Label = 0 := by rw [hb]; rfl
    rcases (Prod.Lex.le_iff _ _).mp hle with hlt | ⟨heq, -⟩
    · have hlt2 : checkinRank a.check.Label < checkinRank b.check.Label := hlt
      rw [hrkb] at hlt2
      exact absurd hlt2 (Nat.not_lt_zero _)
    · have heq2 : checkinRank a.check.Label = checkinRank b.check.Label := heq
      exact checkinRank_eq_zero (heq2.trans hrkb)

/-- Witness for C6 at a concrete two-item list: the Overdue-then-Scheduled
pair is correctly ordered and `sortItems` keeps it in place. -/
theorem sortItems_priority_chain_witness :
    List.Sublist [itemOver, itemCalm] [itemOver, itemCalm]
    ∧ List.Sublist [itemOver, itemCalm]
        (sortItems [itemOver, itemCalm] "priority") :=
  ⟨List.Sublist.refl _,
    (sortItems_priority_chain [itemOver, itemCalm]).2.2.1 itemOver itemCalm
      (List.Sublist.refl _) ((priorityLe_iff _ _).mp (by decide))⟩

/-- Block `stepTotals` never writes `Upcoming`. -/
theorem stepTotals_Upcoming (m : summaryMetrics) (item : awardItem) :
    (stepTotals m item).Upcoming = m.Upcoming := rfl

/-- Block `stepPaceCount` never writes `Upcoming`. -/
theorem stepPaceCount_Upcoming (m : summaryMetrics) (item : awardItem) :
    (stepPaceCount m item).Upcoming = m.Upcoming := by
  simp only [stepPaceCount]
  (repeat' split) <;> rfl

/-- Block `stepOverdueCount` never writes `Upcoming`. -/
theorem stepOverdueCount_Upcoming (m : summaryMetrics) (item : awardItem) :
    (stepOverdueCount m item).Upcoming = m.Upcoming := by
  simp only [stepOverdueCount]
  (repeat' split) <;> rfl

/-- Block `stepDueSoonCount` never writes `Upcoming`. -/
theorem stepDueSoonCount_Upcoming (m : summaryMetrics) (item : awardItem) :
    (stepDueSoonCount m item).Upcoming = m.Upcoming := by
  simp only [stepDueSoonCount]
  (repeat' split) <;> rfl

/-- Block `stepRiskCount` never writes `Upcoming`. -/
theorem stepRiskCount_Upcoming (m : summaryMetrics) (item : awardItem) :
    (stepRiskCount m item).Upcoming = m.Upcoming := by
  simp only [stepRiskCount]
  (repeat' split) <;> rfl

/-- Block `stepUpcoming` appends one entry exactly for a dated,
non-overdue item. -/
theorem stepUpcoming_Upcoming (m : summaryMetrics) (item : awardItem) :
    (stepUpcoming m item).Upcoming =
      m.Upcoming ++
        (if item.check.Date.isSome && !(decide (item.check.Label = "Overdue"))
         then [upcomingEntryOf item] else []) := by
  simp only [stepUpcoming, upcomingEntryOf]
  rcases h : item.check.Date with _ | d
  · simp
  · by_cases hl : item.check.Label = "Overdue" <;> simp [hl]

/-- The loop body of `calculateSummaryMetrics` appends one upcoming entry
exactly for a dated, non-overdue item. -/
theorem summaryStep_Upcoming (m : summaryMetrics) (item : awardItem) :
    (summaryStep m item).Upcoming =
      m.Upcoming ++
        (if item.check.Date.isSome && !(decide (item.check.Label = "Overdue"))
         then [upcomingEntryOf item] else []) := by
  simp only [summaryStep]
  rw [stepUpcoming_Upcoming, stepRiskCount_Upcoming, stepDueSoonCount_Upcoming,
    stepOverdueCount_Upcoming, stepPaceCount_Upcoming, stepTotals_Upcoming]

/-- The loop of `calculateSummaryMetrics` collects exactly the entries of
the dated, non-overdue items, in item order. -/
theorem foldl_summaryStep_Upcoming (l : List awardItem) (m : summaryMetrics) :
    (l.foldl summaryStep m).Upcoming =
      m.Upcoming ++
        (l.filter fun i =>
          i.check.Date.isSome && !(decide (i.check.Label = "Overdue"))).map
          upcomingEntryOf := by
  induction l generalizing m with
  | nil => simp
  | cons a l ih =>
    rw [List.foldl_cons, ih, summaryStep_Upcoming]
    simp only [List.filter_cons]
    by_cases h :
        (a.check.Date.isSome && !(decide (a.check.Label = "Overdue"))) = true <;>
      simp [h]

/-- The upcoming list of the produced summary is the entry of every dated,
non-overdue item, in item order. -/
theorem calculateSummaryMetrics_Upcoming (items : List awardItem) :
    (calculateSummaryMetrics items).Upcoming =
      (items.filter fun i =>
        i.check.Date.isSome && !(decide (i.check.Label = "Overdue"))).map
        upcomingEntryOf := by
  have h := foldl_summaryStep_Upcoming items (summaryInit items)
  simp only [summaryInit, List.nil_append] at h
  simp only [calculateSummaryMetrics]
  split <;> simpa using h

/-- A string is not below another exactly when its code sequence is not
lexicographically below. -/
theorem goStringLt_false_iff (a b : String) :
    goStringLt a b = false ↔ charCodes b ≤ charCodes a := by
  rw [← not_lt]
  constructor
  · intro h hlt
    have hx : goStringLt a b = true := (natListLt_iff _ _).mpr hlt
    simp [h] at hx
  · intro h
    rcases hb : goStringLt a b
    · rfl
    · exact absurd ((natListLt_iff _ _).mp hb) h

/-- The string sort of `buildSummary` permutes its input into an order
sorted by the code-sequence lexicographic order. -/
theorem sortStrings_sorted (l : List String) :
    (sortStrings l).Pairwise
      (fun a b => natListLt (charCodes b) (charCodes a) = false)
    ∧ List.Perm (sortStrings l) l := by
  have htrans : ∀ (a b c : String),
      (!(goStringLt b a)) → (!(goStringLt c b)) → (!(goStringLt c a)) := by
    intro a b c hab hbc
    rw [Bool.not_eq_true'] at hab hbc ⊢
    rw [goStringLt_false_iff] at hab hbc ⊢
    exact le_trans hab hbc
  have htotal : ∀ (a b : String),
      ((!(goStringLt b a)) || !(goStringLt a b)) := by
    intro a b
    rcases le_total (charCodes a) (charCodes b) with h | h
    · simp [Bool.not_eq_true', (goStringLt_false_iff b a).mpr h]
    · simp [Bool.not_eq_true', (goStringLt_false_iff a b).mpr h]
  constructor
  · have hpair := List.sorted_mergeSort htrans htotal l
    refine hpair.imp ?_
    intro a b h
    rw [Bool.not_eq_true'] at h
    exact h
  · exact List.mergeSort_perm l _

/-- C7: the produced `Upcoming` list holds the `"<Mon D> · <scholar>"`
entry of exactly the items with a parsed check-in date and a non-Overdue
label (one entry per such item, in item order; for built items the parsed
date is exactly the record's parseable `NextCheckin`); `buildSummary`
then sorts these strings lexicographically as text, not chronologically:
on the concrete January/April pair the sorted output lists the April
entry first although its date is later. -/
theorem upcoming_entries_lexicographic (items : List awardItem)
    (records : List Disbursement) (now : ℚ) (windowDays : Int) :
    (calculateSummaryMetrics items).Upcoming =
      (items.filter fun i =>
        i.check.Date.isSome && !(decide (i.check.Label = "Overdue"))).map
        upcomingEntryOf
    ∧ (buildItems records now windowDays).map (fun i => i.check.Date) =
        records.map (fun r => r.NextCheckin)
    ∧ List.Pairwise
        (fun a b => natListLt (charCodes b) (charCodes a) = false)
        (sortStrings ((calculateSummaryMetrics items).Upcoming))
    ∧ List.Perm (sortStrings ((calculateSummaryMetrics items).Upcoming))
        ((calculateSummaryMetrics items).Upcoming)
    ∧ sortStrings ((calculateSummaryMetrics upcomingItems).Upcoming) =
        ["Apr 5 · Bea", "Jan 9 · Ada"]
    ∧ itemJan.check.Date = some 20097 ∧ itemApr.check.Date = some 20183
    ∧ (20097 : Int) < 20183 := by
  refine ⟨calculateSummaryMetrics_Upcoming items, ?_, (sortStrings_sorted _).1,
    (sortStrings_sorted _).2, ?_, rfl, rfl, by decide⟩
  · simp only [buildItems, List.map_map]
    apply List.map_congr_left
    intro r _
    rcases h : r.NextCheckin with _ | d <;>
      simp [Function.comp, calculateCheckin, h]
  · rw [upcomingItems_eval, calculateSummaryMetrics_Upcoming]
    rw [show ([itemJan, itemApr].filter fun i =>
        i.check.Date.isSome && !(decide (i.check.Label = "Overdue"))) =
        [itemJan, itemApr] from by
      simp only [List.filter_cons, List.filter_nil]
      rw [if_pos (by decide), if_pos (by decide)]]
    rw [show ([itemJan, itemApr].map upcomingEntryOf) =
        ["Jan 9 · Ada", "Apr 5 · Bea"] from by decide]
    rw [sortStrings, mergeSort_pair,
      show (!(goStringLt "Apr 5 · Bea" "Jan 9 · Ada")) = false from by decide]
    simp

/-- The cohort fold never changes the key. -/
theorem foldl_updateCohortEntry_Cohort (l : List awardItem)
    (e : cohortSummary) : (l.foldl updateCohortEntry e).Cohort = e.Cohort := by
  induction l generalizing e with
  | nil => rfl
  | cons a l ih => rw [List.foldl_cons, ih]; rfl

/-- The cohort fold adds one award per item. -/
theorem foldl_updateCohortEntry_Awards (l : List awardItem)
    (e : cohortSummary) :
    (l.foldl updateCohortEntry e).Awards = e.Awards + l.length := by
  induction l generalizing e with
  | nil => simp
  | cons a l ih =>
    rw [List.foldl_cons, ih]
    simp only [updateCohortEntry, List.length_cons]
    omega

/-- The cohort fold accumulates the guarded per-item ratio sum. -/
theorem foldl_updateCohortEntry_Completion (l : List awardItem)
    (e : cohortSummary) :
    (l.foldl updateCohortEntry e).Completion =
      e.Completion +
        (l.map fun i =>
          if i.data.Amount > 0 then i.data.DisbursedToDate / i.data.Amount
          else 0).sum := by
  induction l generalizing e with
  | nil => simp
  | cons a l ih =>
    rw [List.foldl_cons, ih]
    simp only [updateCohortEntry, List.map_cons, List.sum_cons]
    ring

/-- C3: each produced cohort summary's completion is the mean over the
cohort's items of `disbursed/amount`, where an item with `amount ≤ 0`
contributes `0` to the numerator yet is counted in the denominator; on
the concrete A/B cohort this mean is `0.5` while the global ratio-of-sums
completion over the same two items is `0.10`. -/
theorem buildCohortSummaries_mean_completion (items : List awardItem) :
    (∀ s ∈ buildCohortSummaries items,
      0 < (items.filter fun i => i.data.Cohort == s.Cohort).length
      ∧ s.Awards = (items.filter fun i => i.data.Cohort == s.Cohort).length
      ∧ s.Completion =
          ((items.filter fun i => i.data.Cohort == s.Cohort).map fun i =>
            if i.data.Amount > 0 then i.data.DisbursedToDate / i.data.Amount
            else 0).sum /
            ((items.filter fun i => i.data.Cohort == s.Cohort).length : ℚ))
    ∧ ((buildCohortSummaries abItems).map fun s => (s.Cohort, s.Completion)) =
        [("c1", 1 / 2)]
    ∧ (calculateSummaryMetrics abItems).Completion = 1 / 10 := by
  refine ⟨?_, ?_, ?_⟩
  · intro s hs
    simp only [buildCohortSummaries, List.mem_mergeSort, List.mem_map] at hs
    obtain ⟨c, hc, rfl⟩ := hs
    rw [List.mem_dedup, List.mem_map] at hc
    obtain ⟨i0, hi0, hic⟩ := hc
    set e := (items.filter fun i => i.data.Cohort == c).foldl
      updateCohortEntry (newCohortSummary c) with he
    have hcoh : (finishCohortEntry e).Cohort = c := by
      have hec : e.Cohort = c := by
        rw [he, foldl_updateCohortEntry_Cohort]
        rfl
      simp only [finishCohortEntry]
      split <;> simpa using hec
    have hawards : e.Awards =
        (items.filter fun i => i.data.Cohort == c).length := by
      rw [he, foldl_updateCohortEntry_Awards]
      simp [newCohortSummary]
    rw [hcoh]
    have hlen : 0 < (items.filter fun i => i.data.Cohort == c).length := by
      refine List.length_pos_of_mem (a := i0) ?_
      rw [List.mem_filter]
      exact ⟨hi0, by simp [hic]⟩
    refine ⟨hlen, ?_, ?_⟩
    · have hfa : (finishCohortEntry e).Awards = e.Awards := by
        simp only [finishCohortEntry]
        split <;> rfl
      rw [hfa, hawards]
    · have hpos : e.Awards > 0 := by
        rw [hawards]
        exact hlen
      simp only [finishCohortEntry]
      rw [if_pos hpos]
      show e.Completion / (e.Awards : ℚ) = _
      rw [hawards, he, foldl_updateCohortEntry_Completion]
      simp [newCohortSummary]
  · rw [abItems_eval]
    norm_num +decide [buildCohortSummaries, newCohortSummary,
      updateCohortEntry, finishCohortEntry, itemA, itemB, recA, recB,
      List.dedup_cons_of_mem, List.filter_cons]
  · rw [abItems_eval]
    norm_num +decide [calculateSummaryMetrics, summaryInit, summaryStep,
      stepTotals, stepPaceCount, stepOverdueCount, stepDueSoonCount,
      stepRiskCount, stepUpcoming, itemA, itemB, recA, recB]

/-- Witness for C3 at the concrete A/B cohort. -/
theorem buildCohortSummaries_mean_completion_witness :
    0 < (abItems.filter fun i => i.data.Cohort == cohortAB.Cohort).length
    ∧ cohortAB.Awards =
        (abItems.filter fun i => i.data.Cohort == cohortAB.Cohort).length
    ∧ cohortAB.Completion =
        ((abItems.filter fun i => i.data.Cohort == cohortAB.Cohort).map
          fun i =>
            if i.data.Amount > 0 then i.data.DisbursedToDate / i.data.Amount
            else 0).sum /
          ((abItems.filter fun i =>
            i.data.Cohort == cohortAB.Cohort).length : ℚ) :=
  (buildCohortSummaries_mean_completion abItems).1 cohortAB (by
    rw [show buildCohortSummaries abItems = [cohortAB] from by
      rw [abItems_eval]
      norm_num +decide [buildCohortSummaries, newCohortSummary,
        updateCohortEntry, finishCohortEntry, cohortAB, itemA, itemB, recA,
        recB, List.dedup_cons_of_mem, List.filter_cons]]
    exact List.mem_singleton.mpr rfl)
